import Mathlib

/-!
Shallow embedding of the briefcase repository fragments under verification:
`briefcase/integrations/subprocess.py` (the `Subprocess` wrapper),
`briefcase/commands/publish.py` (`PublishCommand.__call__`), and the
linuxdeploy tool upgrader exercised by
`tests/integrations/linuxdeploy/test_LinuxDeploy__upgrade.py`.

Python dictionaries are modelled as association lists with unique keys
(`Dict`), Python values that are coerced with `str(...)` as `PyVal`, and the
underlying `subprocess` module as a record of functions from the finalized
call to a result.  Debug logging is modelled by collecting the lines the
wrapper would emit through `logger.debug` when the debug level is enabled.
-/

/-- A Python `dict` of environment variables: an association list whose keys
are unique in any dictionary produced by Python. -/
abbrev Dict := List (String × String)

/-- `d[k]` lookup: the value at the first matching key, if any. -/
def dictGet : Dict → String → Option String
  | [], _ => none
  | p :: rest, k => if p.1 = k then some p.2 else dictGet rest k

/-- `d[k] = v`: replace the value at an existing key in place, or append a
new binding at the end, exactly as CPython dict assignment behaves. -/
def dictSet : Dict → String → String → Dict
  | [], k, v => [(k, v)]
  | p :: rest, k, v => if p.1 = k then (k, v) :: rest else p :: dictSet rest k v

/-- `d.update(extra)`: assign every binding of `extra`, in order, into `d`. -/
def dictUpdate (d : Dict) (extra : Dict) : Dict :=
  extra.foldl (fun acc p => dictSet acc p.1 p.2) d

/-- One Python value appearing in an argument list: the `str()` coercion in
the wrapper must handle strings and non-string values alike. -/
inductive PyVal where
  | str (s : String)
  | int (n : Int)
  | path (segs : List String)
deriving DecidableEq, Repr

/-- Python `str(...)` on the modelled values. -/
def pyStr : PyVal → String
  | .str s => s
  | .int n => toString n
  | .path segs => String.intercalate "/" segs

/-- A single-quote character, used by `shlex.quote`. -/
def squote : String := String.singleton (Char.ofNat 39)

/-- Characters `shlex.quote` considers safe: word characters plus the
punctuation at-sign, percent, plus, equals, colon, comma, dot, slash, dash. -/
def shlexSafe (c : Char) : Bool :=
  c.isAlphanum || c = '_' || c = '@' || c = '%' || c = '+' || c = '=' ||
    c = ':' || c = ',' || c = '.' || c = '/' || c = '-'

/-- Python `shlex.quote`. -/
def shlexQuote (s : String) : String :=
  if s = "" then squote ++ squote
  else if s.data.all shlexSafe then s
  else squote ++ (s.replace squote (squote ++ "\"" ++ squote ++ "\"" ++ squote)) ++ squote

/-- Split a character list at newline characters. -/
def splitOnNl : List Char → List (List Char)
  | [] => [[]]
  | c :: rest =>
    match splitOnNl rest with
    | [] => [[]]
    | h :: t => if c = '\n' then [] :: h :: t else (c :: h) :: t

/-- Python `str.splitlines` restricted to `\n` separators: split at newlines
and drop the trailing empty piece a final newline would produce. -/
def splitlines (s : String) : List String :=
  let parts := (splitOnNl s.data).map (fun cs => String.mk cs)
  if parts.getLast? = some "" then parts.dropLast else parts

/-- An error raised by the underlying OS process facility
(`subprocess.SubprocessError`, `OSError`, ...). -/
structure OSError where
  msg : String
deriving DecidableEq, Repr

/-- `subprocess.CompletedProcess`: what `subprocess.run` returns. -/
structure CompletedProcess where
  args : List String
  returncode : Int
  stdout : Option String
  stderr : Option String
deriving DecidableEq, Repr

instance {ε α : Type} [DecidableEq ε] [DecidableEq α] : DecidableEq (Except ε α) :=
  fun a b =>
  match a, b with
  | .ok x, .ok y =>
    if h : x = y then Decidable.isTrue (congrArg Except.ok h)
    else Decidable.isFalse (fun e => h (Except.ok.inj e))
  | .error x, .error y =>
    if h : x = y then Decidable.isTrue (congrArg Except.error h)
    else Decidable.isFalse (fun e => h (Except.error.inj e))
  | .ok _, .error _ => Decidable.isFalse (fun e => Except.noConfusion e)
  | .error _, .ok _ => Decidable.isFalse (fun e => Except.noConfusion e)

/-- A handle on a spawned, still-running process (`subprocess.Popen`). -/
structure PopenHandle where
  pid : Nat
deriving DecidableEq, Repr

/-- The keyword arguments recognised by `Subprocess.final_kwargs`: an
optional environment override, an optional working directory, and the
remaining keyword arguments, which are passed through untouched. -/
structure Kwargs where
  env : Option Dict := none
  cwd : Option PyVal := none
  other : List (String × String) := []
deriving DecidableEq, Repr

/-- The argument vector and keyword arguments handed to the underlying OS
process facility by one wrapper invocation. -/
structure Call where
  args : List String
  kwargs : Kwargs
deriving DecidableEq, Repr

/-- The behaviour of the underlying `subprocess` module: each primitive maps
the finalized call to its result or raises an OS-level error. -/
structure SubprocessModule where
  run : Call → Except OSError CompletedProcess
  check_output : Call → Except OSError String
  popen : Call → Except OSError PopenHandle

/-- The host command object: only its `os.environ` (the ambient process
environment) is consulted by the wrapper. -/
structure Command where
  os_environ : Dict

/-- The `Subprocess` wrapper: a command object plus the `subprocess` module
it delegates to. -/
structure Subprocess where
  command : Command
  sub : SubprocessModule

/-- `Subprocess.final_kwargs`: if `env` was provided, replace it with a full
copy of the ambient environment updated with the override's entries; if
`cwd` was provided, coerce it to string form; everything else passes
through unchanged. -/
def Subprocess.final_kwargs (sp : Subprocess) (kwargs : Kwargs) : Kwargs :=
  let kwargs1 :=
    match kwargs.env with
    | some extra_env => { kwargs with env := some (dictUpdate sp.command.os_environ extra_env) }
    | none => kwargs
  match kwargs1.cwd with
  | some cwd => { kwargs1 with cwd := some (PyVal.str (pyStr cwd)) }
  | none => kwargs1

/-- `Subprocess._log_command`: the debug lines describing the command. -/
def log_command (debug : Bool) (args : List PyVal) : List String :=
  if debug then
    ["", "Running Command:",
      "\t" ++ String.intercalate " " (args.map (fun a => shlexQuote (pyStr a)))]
  else []

/-- `Subprocess._log_environment`: a no-op unless debug logging is enabled;
otherwise logs `env or self.command.os.environ`, one `name=value` line per
entry.  Note the caller passes `kwargs.get("env")` — the raw override. -/
def log_environment (ambient : Dict) (debug : Bool) (env : Option Dict) : List String :=
  if debug then
    let e := match env with
      | some d => if d.isEmpty then ambient else d
      | none => ambient
    "Environment:" :: e.map (fun p => "\t" ++ (p.1 ++ "=" ++ p.2))
  else []

/-- `Subprocess._log_output`: if the captured output is non-empty, log a
header and then every line of it. -/
def log_output (debug : Bool) (output : String) : List String :=
  if debug && !(output = "") then
    "Command Output:" :: (splitlines output).map (fun line => "\t" ++ line)
  else []

/-- `Subprocess._log_return_code`. -/
def log_return_code (debug : Bool) (rc : Int) : List String :=
  if debug then ["Return code: " ++ toString rc] else []

/-- The observable outcome of one `Subprocess.run` invocation: the debug log
lines emitted, the call made on the underlying facility, and the value
returned (or error raised) to the caller. -/
structure RunResult where
  logs : List String
  call : Call
  result : Except OSError CompletedProcess
deriving Repr

/-- Outcome of one `Subprocess.check_output` invocation. -/
structure CheckOutputResult where
  logs : List String
  call : Call
  result : Except OSError String
deriving Repr

/-- Outcome of one `Subprocess.Popen` invocation. -/
structure PopenResult where
  logs : List String
  call : Call
  result : Except OSError PopenHandle
deriving Repr

/-- `Subprocess.run`: log the command and the environment (passing the raw
`kwargs.get("env")`), log the output header, invoke `subprocess.run` on the
string-coerced arguments and finalized kwargs, then log the return code of
the completed process (skipped if the underlying call raised). -/
def Subprocess.run (sp : Subprocess) (debug : Bool) (args : List PyVal) (kwargs : Kwargs) :
    RunResult :=
  let logs1 := log_command debug args
    ++ log_environment sp.command.os_environ debug kwargs.env
    ++ (if debug then ["Command Output:"] else [])
  let call : Call := { args := args.map pyStr, kwargs := sp.final_kwargs kwargs }
  { logs := logs1 ++ (match sp.sub.run call with
      | .ok ret => log_return_code debug ret.returncode
      | .error _ => []),
    call := call,
    result := sp.sub.run call }

/-- `Subprocess.check_output`: log the command and the environment, invoke
`subprocess.check_output` on the string-coerced arguments and finalized
kwargs, then log the captured output (skipped if the call raised). -/
def Subprocess.check_output (sp : Subprocess) (debug : Bool) (args : List PyVal)
    (kwargs : Kwargs) : CheckOutputResult :=
  let logs1 := log_command debug args
    ++ log_environment sp.command.os_environ debug kwargs.env
  let call : Call := { args := args.map pyStr, kwargs := sp.final_kwargs kwargs }
  { logs := logs1 ++ (match sp.sub.check_output call with
      | .ok ret => log_output debug ret
      | .error _ => []),
    call := call,
    result := sp.sub.check_output call }

/-- `Subprocess.Popen`: log the command and the environment, then invoke
`subprocess.Popen` on the string-coerced arguments and finalized kwargs and
hand its result straight back. -/
def Subprocess.Popen (sp : Subprocess) (debug : Bool) (args : List PyVal)
    (kwargs : Kwargs) : PopenResult :=
  let logs1 := log_command debug args
    ++ log_environment sp.command.os_environ debug kwargs.env
  let call : Call := { args := args.map pyStr, kwargs := sp.final_kwargs kwargs }
  { logs := logs1, call := call, result := sp.sub.popen call }

/-- A heap of mutable Python dict objects, addressed by reference, used to
make the in-place mutation performed by `dict.update` observable.  Reference
`r` denotes the dict stored at index `r`. -/
structure Heap where
  dicts : List Dict
deriving DecidableEq, Repr

/-- Dereference a dict object. -/
def Heap.read (h : Heap) (r : Nat) : Dict := (h.dicts[r]?).getD []

/-- Allocate a fresh dict object, returning the new heap and its reference. -/
def Heap.alloc (h : Heap) (d : Dict) : Heap × Nat :=
  ({ dicts := h.dicts ++ [d] }, h.dicts.length)

/-- Overwrite the dict object at a reference. -/
def Heap.write (h : Heap) (r : Nat) (d : Dict) : Heap :=
  { dicts := h.dicts.set r d }

/-- The `env` branch of `Subprocess.final_kwargs` played out on mutable dict
objects: `kwargs["env"] = self.command.os.environ.copy()` allocates a fresh
copy of the ambient dict, and `kwargs["env"].update(extra_env)` mutates that
fresh object, never the ambient one.  Returns the heap after the calls and
the reference stored under the `env` key (none when no override was given). -/
def final_kwargs_env_heap (h : Heap) (ambientRef : Nat) (envOverride : Option Dict) :
    Heap × Option Nat :=
  match envOverride with
  | none => (h, none)
  | some extra =>
    let alloced := h.alloc (h.read ambientRef)
    let h1 := alloced.1
    let r := alloced.2
    let h2 := h1.write r (dictUpdate (h1.read r) extra)
    (h2, some r)

/-- Modelled from the spec: the download collaborator used by the linuxdeploy
upgrader (`command.download_url`, absent from the shown sources) either
returns the path of the downloaded artifact or raises a connection-level
transport error. -/
inductive DownloadBehavior where
  | succeeds (downloaded : String)
  | connectionError
deriving DecidableEq, Repr

/-- Modelled from the spec: the host command object the `LinuxDeploy` tool
wrapper is constructed over — a host architecture tag, a tools directory,
and the behaviour of its download collaborator. -/
structure LinuxDeployCmd where
  host_arch : String
  tools_path : String
  download : DownloadBehavior
deriving DecidableEq, Repr

/-- An observable action performed by the upgrader: deleting the old
artifact, requesting a download, or marking the artifact executable. -/
inductive UEvent where
  | deleteFile (path : String)
  | download_url (url : String) (download_path : String)
  | chmod (path : String) (mode : Nat)
deriving DecidableEq, Repr

/-- Recognises a download request among upgrade events. -/
def isDownloadEvent : UEvent → Bool
  | .download_url _ _ => true
  | _ => false

/-- The upgrade call either completes or raises the domain-specific
`NetworkFailure` error, which carries context naming the URL that failed. -/
inductive UpgradeOutcome where
  | ok
  | networkFailure (url : String)
deriving DecidableEq, Repr

/-- Result of one `upgrade()` call: the actions performed in order, whether
the artifact exists at its canonical path afterwards, and the outcome. -/
structure UpgradeResult where
  events : List UEvent
  existsAfter : Bool
  outcome : UpgradeOutcome
deriving DecidableEq, Repr

/-- Modelled from the spec: the canonical artifact file name
`linuxdeploy-<arch>.AppImage`. -/
def LinuxDeploy.appimage_name (c : LinuxDeployCmd) : String :=
  "linuxdeploy-" ++ c.host_arch ++ ".AppImage"

/-- Modelled from the spec: the install path `<tools>/<name>` of the
artifact. -/
def LinuxDeploy.appimage_path (c : LinuxDeployCmd) : String :=
  c.tools_path ++ "/" ++ LinuxDeploy.appimage_name c

/-- Modelled from the spec: the fixed release URL the artifact is fetched
from. -/
def LinuxDeploy.appimage_url (c : LinuxDeployCmd) : String :=
  "https://github.com/linuxdeploy/linuxdeploy/releases/download/continuous/"
    ++ LinuxDeploy.appimage_name c

/-- Modelled from the spec: `LinuxDeploy.upgrade` (the module
`briefcase/integrations/linuxdeploy.py` is absent from the shown sources;
only its tests are).  Steps: delete the existing artifact if present, request
a download of the fixed URL into the tools directory, and on success chmod
the downloaded artifact to octal 755; a connection-level error from the
download is re-raised as the domain `NetworkFailure` error, the deletion is
not rolled back, and no chmod happens.  `existsBefore` says whether the
artifact file existed at its canonical path when `upgrade()` was called. -/
def LinuxDeploy.upgrade (c : LinuxDeployCmd) (existsBefore : Bool) : UpgradeResult :=
  let del := if existsBefore then [UEvent.deleteFile (LinuxDeploy.appimage_path c)] else []
  match c.download with
  | .succeeds p =>
    { events := del ++ [UEvent.download_url (LinuxDeploy.appimage_url c) c.tools_path,
        UEvent.chmod p 0o755],
      existsAfter := true,
      outcome := .ok }
  | .connectionError =>
    { events := del ++ [UEvent.download_url (LinuxDeploy.appimage_url c) c.tools_path],
      existsAfter := false,
      outcome := .networkFailure (LinuxDeploy.appimage_url c) }

/-- An application entry of a briefcase project configuration; only its name
is relevant to the publish command's checks. -/
structure AppConfig where
  name : String
deriving DecidableEq, Repr

/-- `briefcase.exceptions.BriefcaseCommandError`, carrying its message. -/
structure BriefcaseCommandError where
  msg : String
deriving DecidableEq, Repr

/-- The message `PublishCommand.__call__` raises for an unbuilt app. -/
def publish_error_msg (app_name : String) : String :=
  "Application " ++ app_name ++ " has not been built. "
    ++ "Build (and test!) the app before publishing."

/-- Outcome of `PublishCommand.__call__`: the `(app_name, app)` pairs passed
to `publish_app`, in call order, and the error raised, if any. -/
structure PublishOutcome where
  published : List (String × AppConfig)
  error : Option BriefcaseCommandError
deriving DecidableEq, Repr

/-- `PublishCommand.__call__`: after `verify_tools()` (external, no-op here),
walk `self.apps.items()` in insertion order and raise a
`BriefcaseCommandError` naming the first app whose binary path does not
exist; if all binaries exist, call `publish_app` once per app over
`sorted(self.apps.items())`.  `apps` is the items list of the ordered app
dict; `binary_exists app` models `self.binary_path(app).exists()`; the
`options.channel` argument passed to `publish_app`, constant across calls,
is not modelled. -/
def PublishCommand_call (apps : List (String × AppConfig))
    (binary_exists : AppConfig → Bool) : PublishOutcome :=
  match apps.find? (fun p => ! binary_exists p.2) with
  | some p => { published := [], error := some { msg := publish_error_msg p.1 } }
  | none =>
    { published := List.insertionSort (fun a b => a.1 ≤ b.1) apps, error := none }

instance : IsTotal (String × AppConfig) (fun a b => a.1 ≤ b.1) :=
  ⟨fun a b => le_total a.1 b.1⟩

instance : IsTrans (String × AppConfig) (fun a b => a.1 ≤ b.1) :=
  ⟨fun _ _ _ h1 h2 => le_trans h1 h2⟩

/-- A stub `subprocess` module whose primitives all succeed. -/
def subStub : SubprocessModule where
  run := fun _ => .ok { args := [], returncode := 0, stdout := none, stderr := none }
  check_output := fun _ => .ok "out1\nout2"
  popen := fun _ => .ok { pid := 1 }

/-- A wrapper over an ambient environment holding only `HOME=/h`. -/
def spHome : Subprocess :=
  { command := { os_environ := [("HOME", "/h")] }, sub := subStub }

/-- A wrapper whose underlying `run` reports exit code 0 and captured
standard output `hello`. -/
def spHello : Subprocess :=
  { command := { os_environ := [] },
    sub := { subStub with
      run := fun _ => .ok { args := [], returncode := 0, stdout := some "hello", stderr := none } } }

/-- A wrapper whose underlying `run` reports exit code 0 and no captured
output. -/
def spPlain : Subprocess := { command := { os_environ := [] }, sub := subStub }

/-- A wrapper whose underlying primitives all raise an OS-level error. -/
def spBoom : Subprocess :=
  { command := { os_environ := [] },
    sub := { run := fun _ => .error { msg := "boom" },
             check_output := fun _ => .error { msg := "boom" },
             popen := fun _ => .error { msg := "boom" } } }

/-- The linuxdeploy command of the upgrade tests: architecture `wonky`,
tools directory `/t/tools`, download succeeding with `new-downloaded-file`. -/
def cWonky : LinuxDeployCmd :=
  { host_arch := "wonky", tools_path := "/t/tools",
    download := .succeeds "new-downloaded-file" }

/-- Same command but with the download raising a connection error. -/
def cWonkyFail : LinuxDeployCmd :=
  { host_arch := "wonky", tools_path := "/t/tools", download := .connectionError }

/-- A one-object heap: the ambient environment dict at reference 0. -/
def heapW : Heap := { dicts := [[("HOME", "/h")]] }

/-- Two apps in non-alphabetical insertion order. -/
def appsW : List (String × AppConfig) :=
  [("beta", { name := "beta" }), ("alpha", { name := "alpha" })]

theorem dictGet_dictSet_self (d : Dict) (k v : String) :
    dictGet (dictSet d k v) k = some v := by
  induction d with
  | nil => simp [dictSet, dictGet]
  | cons p rest ih =>
    by_cases h : p.1 = k
    · simp [dictSet, h, dictGet]
    · simp [dictSet, h, dictGet, ih]

theorem dictGet_dictSet_ne (d : Dict) (k k' v : String) (h : k' ≠ k) :
    dictGet (dictSet d k v) k' = dictGet d k' := by
  induction d with
  | nil => simp [dictSet, dictGet, Ne.symm h]
  | cons p rest ih =>
    by_cases hp : p.1 = k
    · have hp' : p.1 ≠ k' := by rw [hp]; exact Ne.symm h
      simp [dictSet, hp, dictGet, Ne.symm h, hp']
    · simp [dictSet, hp, dictGet, ih]

theorem dictGet_eq_none_of_not_mem (d : Dict) (k : String)
    (h : k ∉ d.map Prod.fst) : dictGet d k = none := by
  induction d with
  | nil => rfl
  | cons p rest ih =>
    simp only [List.map_cons, List.mem_cons] at h
    push_neg at h
    have h1 : ¬ p.1 = k := fun e => h.1 e.symm
    simp [dictGet, h1, ih h.2]

theorem dictGet_dictUpdate_none (d extra : Dict) (k : String)
    (h : dictGet extra k = none) :
    dictGet (dictUpdate d extra) k = dictGet d k := by
  induction extra generalizing d with
  | nil => rfl
  | cons q rest ih =>
    have hq : ¬ q.1 = k := by
      intro e
      simp [dictGet, e] at h
    have hr : dictGet rest k = none := by simpa [dictGet, hq] using h
    show dictGet (dictUpdate (dictSet d q.1 q.2) rest) k = dictGet d k
    rw [ih _ hr, dictGet_dictSet_ne _ _ _ _ (fun e => hq e.symm)]

theorem dictGet_dictUpdate_some (d extra : Dict) (k v : String)
    (hnd : (extra.map Prod.fst).Nodup) (h : dictGet extra k = some v) :
    dictGet (dictUpdate d extra) k = some v := by
  induction extra generalizing d with
  | nil => simp [dictGet] at h
  | cons q rest ih =>
    rw [List.map_cons, List.nodup_cons] at hnd
    by_cases hq : q.1 = k
    · have hv : q.2 = v := by
        have := h
        simp [dictGet, hq] at this
        exact this
      have hk : k ∉ rest.map Prod.fst := by rw [← hq]; exact hnd.1
      show dictGet (dictUpdate (dictSet d q.1 q.2) rest) k = some v
      rw [dictGet_dictUpdate_none _ _ _ (dictGet_eq_none_of_not_mem _ _ hk), hq,
        dictGet_dictSet_self, hv]
    · have hr : dictGet rest k = some v := by simpa [dictGet, hq] using h
      show dictGet (dictUpdate (dictSet d q.1 q.2) rest) k = some v
      exact ih (dictSet d q.1 q.2) hnd.2 hr

theorem final_kwargs_env (sp : Subprocess) (kw : Kwargs) :
    (sp.final_kwargs kw).env
      = kw.env.map (fun ov => dictUpdate sp.command.os_environ ov) := by
  rcases kw with ⟨e, c, o⟩
  cases e <;> cases c <;> rfl

/-- C1: for every invocation of `run`, `check_output` or `Popen` that
supplies an environment override, the environment handed to the underlying
OS facility is the ambient environment updated with the override — override
values replace same-named ambient values, all other ambient keys are
unchanged — and when no override is supplied, no `env` argument is passed
on. -/
theorem C1_env_override_merge (sp : Subprocess) (d : Bool) (args : List PyVal) (kw : Kwargs) :
    (∀ ov, kw.env = some ov →
      ((sp.run d args kw).call.kwargs.env = some (dictUpdate sp.command.os_environ ov)
        ∧ (sp.check_output d args kw).call.kwargs.env
            = some (dictUpdate sp.command.os_environ ov)
        ∧ (sp.Popen d args kw).call.kwargs.env
            = some (dictUpdate sp.command.os_environ ov))
      ∧ ((ov.map Prod.fst).Nodup → ∀ k v, dictGet ov k = some v →
          dictGet (dictUpdate sp.command.os_environ ov) k = some v)
      ∧ (∀ k, dictGet ov k = none →
          dictGet (dictUpdate sp.command.os_environ ov) k
            = dictGet sp.command.os_environ k))
    ∧ (kw.env = none →
      ((sp.run d args kw).call.kwargs.env = none
        ∧ (sp.check_output d args kw).call.kwargs.env = none
        ∧ (sp.Popen d args kw).call.kwargs.env = none)) := by
  constructor
  · intro ov hov
    refine ⟨⟨?_, ?_, ?_⟩, ?_, ?_⟩
    · show (sp.final_kwargs kw).env = _
      rw [final_kwargs_env, hov]
      rfl
    · show (sp.final_kwargs kw).env = _
      rw [final_kwargs_env, hov]
      rfl
    · show (sp.final_kwargs kw).env = _
      rw [final_kwargs_env, hov]
      rfl
    · intro hnd k v h
      exact dictGet_dictUpdate_some _ _ _ _ hnd h
    · intro k h
      exact dictGet_dictUpdate_none _ _ _ h
  · intro hov
    refine ⟨?_, ?_, ?_⟩ <;>
      · show (sp.final_kwargs kw).env = none
        rw [final_kwargs_env, hov]
        rfl

/-- Witness for C1 at a concrete wrapper and override. -/
theorem C1_env_override_merge_witness :
    ((spHome.run true [PyVal.str "x"] { env := some [("PATH", "/bin")] }).call.kwargs.env
        = some (dictUpdate spHome.command.os_environ [("PATH", "/bin")])
      ∧ (spHome.check_output true [PyVal.str "x"] { env := some [("PATH", "/bin")] }).call.kwargs.env
        = some (dictUpdate spHome.command.os_environ [("PATH", "/bin")])
      ∧ (spHome.Popen true [PyVal.str "x"] { env := some [("PATH", "/bin")] }).call.kwargs.env
        = some (dictUpdate spHome.command.os_environ [("PATH", "/bin")]))
    ∧ ((spHome.run true [PyVal.str "x"] { }).call.kwargs.env = none) :=
  ⟨((C1_env_override_merge spHome true [PyVal.str "x"]
      { env := some [("PATH", "/bin")] }).1 [("PATH", "/bin")] rfl).1,
   ((C1_env_override_merge spHome true [PyVal.str "x"] { }).2 rfl).1⟩

/-- C4: the code here diverges from the claim.  On a debug-enabled call that
supplies the override `PATH=/bin` over the ambient environment `HOME=/h`,
the wrapper merges both into the environment passed to the OS facility, but
the `Environment:` log section lists only the override entry `PATH=/bin`:
the merged entry `HOME=/h` is never logged, because `run` hands
`_log_environment` the raw override instead of the merged mapping. -/
theorem C4_env_logging_divergence :
    (spHome.run true [PyVal.str "x"] { env := some [("PATH", "/bin")] }).call.kwargs.env
        = some [("HOME", "/h"), ("PATH", "/bin")]
    ∧ (spHome.run true [PyVal.str "x"] { env := some [("PATH", "/bin")] }).logs
        = ["", "Running Command:", "\tx", "Environment:", "\tPATH=/bin",
            "Command Output:", "Return code: 0"]
    ∧ "\tHOME=/h" ∉ (spHome.run true [PyVal.str "x"] { env := some [("PATH", "/bin")] }).logs := by
  decide

/-- C5 counterexample: `run` does not return the exit code and nothing
else — two invocations whose processes exit with the same code 0 return
different values, because the returned completed-process object also
carries the captured output. -/
theorem C5_counterexample :
    (spHello.run true [] { }).result
        = Except.ok { args := [], returncode := 0, stdout := some "hello", stderr := none }
    ∧ (spPlain.run true [] { }).result
        = Except.ok { args := [], returncode := 0, stdout := none, stderr := none }
    ∧ (spHello.run true [] { }).result ≠ (spPlain.run true [] { }).result := by
  refine ⟨rfl, rfl, ?_⟩
  decide

/-- C5 amended: a successful `run` returns the completed-process object
produced by the underlying OS facility, unchanged — the exit code is its
`returncode` field, not the whole return value. -/
theorem C5_run_returns_completed_process (sp : Subprocess) (d : Bool) (args : List PyVal)
    (kw : Kwargs) :
    (sp.run d args kw).result
      = sp.sub.run { args := args.map pyStr, kwargs := sp.final_kwargs kw } := rfl

/-- C7: all three wrapper operations pass the argument sequence to the
underlying OS facility with every element coerced to its string form,
preserving order and length. -/
theorem C7_args_str_coercion (sp : Subprocess) (d : Bool) (args : List PyVal) (kw : Kwargs) :
    ((sp.run d args kw).call.args = args.map pyStr
      ∧ (sp.check_output d args kw).call.args = args.map pyStr
      ∧ (sp.Popen d args kw).call.args = args.map pyStr)
    ∧ ((sp.run d args kw).call.args.length = args.length
      ∧ (sp.check_output d args kw).call.args.length = args.length
      ∧ (sp.Popen d args kw).call.args.length = args.length) := by
  refine ⟨⟨rfl, rfl, rfl⟩, ?_, ?_, ?_⟩ <;>
    · show (args.map pyStr).length = args.length
      simp

/-- C8: an error raised by the underlying OS facility propagates unchanged
to the caller of `run`, `check_output`, and `Popen`. -/
theorem C8_errors_propagate (sp : Subprocess) (d : Bool) (args : List PyVal) (kw : Kwargs)
    (e : OSError) :
    (sp.sub.run ((sp.run d args kw).call) = .error e →
        (sp.run d args kw).result = .error e)
    ∧ (sp.sub.check_output ((sp.check_output d args kw).call) = .error e →
        (sp.check_output d args kw).result = .error e)
    ∧ (sp.sub.popen ((sp.Popen d args kw).call) = .error e →
        (sp.Popen d args kw).result = .error e) :=
  ⟨fun h => h, fun h => h, fun h => h⟩

/-- Witness for C8 on a wrapper whose primitives all raise. -/
theorem C8_errors_propagate_witness :
    (spBoom.run true [] { }).result = Except.error { msg := "boom" }
    ∧ (spBoom.check_output true [] { }).result = Except.error { msg := "boom" }
    ∧ (spBoom.Popen true [] { }).result = Except.error { msg := "boom" } :=
  ⟨(C8_errors_propagate spBoom true [] { } { msg := "boom" }).1 rfl,
   (C8_errors_propagate spBoom true [] { } { msg := "boom" }).2.1 rfl,
   (C8_errors_propagate spBoom true [] { } { msg := "boom" }).2.2 rfl⟩

theorem appimage_path_wonky (c : LinuxDeployCmd) (h : c.host_arch = "wonky") :
    LinuxDeploy.appimage_path c = c.tools_path ++ "/linuxdeploy-wonky.AppImage" := by
  unfold LinuxDeploy.appimage_path LinuxDeploy.appimage_name
  rw [h, String.append_assoc]
  congr 1

theorem appimage_url_wonky (c : LinuxDeployCmd) (h : c.host_arch = "wonky") :
    LinuxDeploy.appimage_url c
      = "https://github.com/linuxdeploy/linuxdeploy/releases/download/continuous/linuxdeploy-wonky.AppImage" := by
  unfold LinuxDeploy.appimage_url LinuxDeploy.appimage_name
  rw [h]
  decide

/-- C2: with tool `linuxdeploy` and host architecture `wonky`, a successful
`upgrade()` first deletes `<tools>/linuxdeploy-wonky.AppImage` when it
existed, requests exactly one download of the fixed continuous-release URL
into the tools directory, and chmods the downloaded artifact to octal 755;
the download and chmod actions are the same whether or not the file existed
beforehand. -/
theorem C2_upgrade_success (c : LinuxDeployCmd) (p : String) (e0 : Bool)
    (harch : c.host_arch = "wonky") (hdl : c.download = DownloadBehavior.succeeds p) :
    (LinuxDeploy.upgrade c e0).events =
      (if e0 then [UEvent.deleteFile (c.tools_path ++ "/linuxdeploy-wonky.AppImage")] else [])
      ++ [UEvent.download_url
            "https://github.com/linuxdeploy/linuxdeploy/releases/download/continuous/linuxdeploy-wonky.AppImage"
            c.tools_path,
          UEvent.chmod p 0o755]
    ∧ ((LinuxDeploy.upgrade c e0).events.countP isDownloadEvent) = 1 := by
  have hp := appimage_path_wonky c harch
  have hu := appimage_url_wonky c harch
  constructor
  · simp only [LinuxDeploy.upgrade, hdl, hp, hu]
  · simp only [LinuxDeploy.upgrade, hdl]
    cases e0 <;> simp [isDownloadEvent]

/-- Witness for C2 on the scenario of the tests: both with a pre-existing
install and the download succeeding with `new-downloaded-file`. -/
theorem C2_upgrade_success_witness :
    (LinuxDeploy.upgrade cWonky true).events =
      [UEvent.deleteFile "/t/tools/linuxdeploy-wonky.AppImage",
       UEvent.download_url
         "https://github.com/linuxdeploy/linuxdeploy/releases/download/continuous/linuxdeploy-wonky.AppImage"
         "/t/tools",
       UEvent.chmod "new-downloaded-file" 0o755]
    ∧ ((LinuxDeploy.upgrade cWonky true).events.countP isDownloadEvent) = 1 :=
  C2_upgrade_success cWonky "new-downloaded-file" true rfl rfl

/-- C3: when the download raises a connection-level error, `upgrade()`
re-raises it as the domain `NetworkFailure` error carrying the failing URL,
the deletion of the existing artifact is not rolled back (the tool is left
absent), and no chmod occurs. -/
theorem C3_upgrade_download_failure (c : LinuxDeployCmd) (e0 : Bool)
    (hdl : c.download = DownloadBehavior.connectionError) :
    (LinuxDeploy.upgrade c e0).outcome
        = UpgradeOutcome.networkFailure (LinuxDeploy.appimage_url c)
    ∧ (LinuxDeploy.upgrade c e0).existsAfter = false
    ∧ (∀ q m, UEvent.chmod q m ∉ (LinuxDeploy.upgrade c e0).events)
    ∧ (e0 = true →
        (LinuxDeploy.upgrade c e0).events =
          [UEvent.deleteFile (LinuxDeploy.appimage_path c),
           UEvent.download_url (LinuxDeploy.appimage_url c) c.tools_path]) := by
  refine ⟨?_, ?_, ?_, ?_⟩
  · simp only [LinuxDeploy.upgrade, hdl]
  · simp only [LinuxDeploy.upgrade, hdl]
  · intro q m
    simp only [LinuxDeploy.upgrade, hdl]
    cases e0 <;> simp
  · intro he
    subst he
    simp [LinuxDeploy.upgrade, hdl]

/-- Witness for C3 with a pre-existing install and a failing download. -/
theorem C3_upgrade_download_failure_witness :
    (LinuxDeploy.upgrade cWonkyFail true).outcome
        = UpgradeOutcome.networkFailure
            "https://github.com/linuxdeploy/linuxdeploy/releases/download/continuous/linuxdeploy-wonky.AppImage"
    ∧ (LinuxDeploy.upgrade cWonkyFail true).existsAfter = false
    ∧ UEvent.chmod "new-downloaded-file" 0o755 ∉ (LinuxDeploy.upgrade cWonkyFail true).events
    ∧ (LinuxDeploy.upgrade cWonkyFail true).events =
        [UEvent.deleteFile "/t/tools/linuxdeploy-wonky.AppImage",
         UEvent.download_url
           "https://github.com/linuxdeploy/linuxdeploy/releases/download/continuous/linuxdeploy-wonky.AppImage"
           "/t/tools"] :=
  ⟨(C3_upgrade_download_failure cWonkyFail true rfl).1,
   (C3_upgrade_download_failure cWonkyFail true rfl).2.1,
   (C3_upgrade_download_failure cWonkyFail true rfl).2.2.1 "new-downloaded-file" 0o755,
   (C3_upgrade_download_failure cWonkyFail true rfl).2.2.2 rfl⟩

/-- C9: the ambient environment dict is never mutated by `final_kwargs`:
the merge happens on a freshly allocated copy, so after the call the dict at
the ambient reference is unchanged, and the dict stored under the `env` key
is a distinct object holding the ambient entries updated with the
override. -/
theorem C9_ambient_env_not_mutated (h : Heap) (r : Nat) (ov : Option Dict)
    (hr : r < h.dicts.length) :
    Heap.read (final_kwargs_env_heap h r ov).1 r = Heap.read h r
    ∧ (∀ extra, ov = some extra →
        ((final_kwargs_env_heap h r ov).2 = some h.dicts.length
          ∧ h.dicts.length ≠ r
          ∧ Heap.read (final_kwargs_env_heap h r ov).1 h.dicts.length
              = dictUpdate (Heap.read h r) extra)) := by
  cases ov with
  | none =>
    exact ⟨rfl, fun extra he => by cases he⟩
  | some extra =>
    have hnr : h.dicts.length ≠ r := (ne_of_lt hr).symm
    have hcopy : (h.dicts ++ [Heap.read h r])[h.dicts.length]? = some (Heap.read h r) := by
      simp
    constructor
    · show ((h.dicts ++ [Heap.read h r]).set h.dicts.length _)[r]?.getD [] = Heap.read h r
      rw [List.getElem?_set_ne hnr]
      simp [Heap.read, List.getElem?_append, hr]
    · intro extra2 he2
      cases he2
      refine ⟨rfl, hnr, ?_⟩
      show ((h.dicts ++ [Heap.read h r]).set h.dicts.length
          (dictUpdate ((h.dicts ++ [Heap.read h r])[h.dicts.length]?.getD []) extra))[h.dicts.length]?.getD []
        = dictUpdate (Heap.read h r) extra
      rw [hcopy]
      rw [List.getElem?_set_eq_of_lt]
      all_goals simp

/-- Witness for C9 on a one-dict heap with override `PATH=/p`. -/
theorem C9_ambient_env_not_mutated_witness :
    Heap.read (final_kwargs_env_heap heapW 0 (some [("PATH", "/p")])).1 0 = Heap.read heapW 0
    ∧ (final_kwargs_env_heap heapW 0 (some [("PATH", "/p")])).2 = some 1
    ∧ Heap.read (final_kwargs_env_heap heapW 0 (some [("PATH", "/p")])).1 1
        = dictUpdate (Heap.read heapW 0) [("PATH", "/p")] :=
  ⟨(C9_ambient_env_not_mutated heapW 0 (some [("PATH", "/p")]) (by decide)).1,
   ((C9_ambient_env_not_mutated heapW 0 (some [("PATH", "/p")]) (by decide)).2
      [("PATH", "/p")] rfl).1,
   ((C9_ambient_env_not_mutated heapW 0 (some [("PATH", "/p")]) (by decide)).2
      [("PATH", "/p")] rfl).2.2⟩

/-- C10: if some app's binary is missing, `PublishCommand.__call__` raises a
`BriefcaseCommandError` naming the first such app and publishes nothing;
if every binary exists, it calls `publish_app` exactly once per app, in
sorted order of app name. -/
theorem C10_publish_gate (apps : List (String × AppConfig))
    (binary_exists : AppConfig → Bool) :
    (∀ q, apps.find? (fun p => ! binary_exists p.2) = some q →
      (q ∈ apps ∧ binary_exists q.2 = false
        ∧ PublishCommand_call apps binary_exists
            = { published := [], error := some { msg := publish_error_msg q.1 } }))
    ∧ ((∀ p ∈ apps, binary_exists p.2 = true) →
      ((PublishCommand_call apps binary_exists).error = none
        ∧ ((PublishCommand_call apps binary_exists).published).Perm apps
        ∧ List.Sorted (fun a b => a ≤ b)
            (((PublishCommand_call apps binary_exists).published).map Prod.fst)))
    ∧ ((∃ p ∈ apps, binary_exists p.2 = false) →
        (PublishCommand_call apps binary_exists).published = []) := by
  refine ⟨?_, ?_, ?_⟩
  · intro q hq
    refine ⟨List.mem_of_find?_eq_some hq, by simpa using List.find?_some hq, ?_⟩
    unfold PublishCommand_call
    rw [hq]
  · intro hall
    have hnone : apps.find? (fun p => ! binary_exists p.2) = none := by
      rw [List.find?_eq_none]
      intro p hp
      simp [hall p hp]
    have hres : PublishCommand_call apps binary_exists
        = { published := List.insertionSort (fun a b => a.1 ≤ b.1) apps, error := none } := by
      unfold PublishCommand_call
      rw [hnone]
    rw [hres]
    refine ⟨rfl, List.perm_insertionSort _ apps, ?_⟩
    have hs := List.sorted_insertionSort (fun a b : String × AppConfig => a.1 ≤ b.1) apps
    simpa [List.Sorted, List.pairwise_map] using hs
  · rintro ⟨p, hp, hf⟩
    cases hq : apps.find? (fun p => ! binary_exists p.2) with
    | none =>
      have := List.find?_eq_none.mp hq p hp
      simp [hf] at this
    | some q =>
      unfold PublishCommand_call
      rw [hq]

/-- Witness for C10: with both binaries present both apps are published in
name order; with binaries missing, the first app in insertion order is named
and nothing is published. -/
theorem C10_publish_gate_witness :
    ((PublishCommand_call appsW (fun _ => true)).error = none
      ∧ ((PublishCommand_call appsW (fun _ => true)).published).Perm appsW
      ∧ List.Sorted (fun a b => a ≤ b)
          (((PublishCommand_call appsW (fun _ => true)).published).map Prod.fst))
    ∧ (("beta", ({ name := "beta" } : AppConfig)) ∈ appsW
      ∧ (fun _ => false) ({ name := "beta" } : AppConfig) = false
      ∧ PublishCommand_call appsW (fun _ => false)
          = { published := [], error := some { msg := publish_error_msg "beta" } }) :=
  ⟨(C10_publish_gate appsW (fun _ => true)).2.1 (by decide),
   (C10_publish_gate appsW (fun _ => false)).1 ("beta", { name := "beta" }) rfl⟩

theorem string_ne_of_take2 {s t : String} (h : s.data.take 2 ≠ t.data.take 2) : s ≠ t :=
  fun e => h (by rw [e])

theorem retcode_take2 (x : String) : ("Return code: " ++ x).data.take 2 = ['R', 'e'] := rfl

theorem tab_take2 (y : String) : ("\t" ++ y).data.take 2 = '\t' :: y.data.take 1 := rfl

theorem retcode_ne_tab (x y : String) : ("Return code: " ++ x) ≠ ("\t" ++ y) := by
  apply string_ne_of_take2
  rw [retcode_take2, tab_take2]
  intro h
  injection h with h1 _
  exact absurd h1 (by decide)

theorem retcode_ne_empty (x : String) : ("Return code: " ++ x) ≠ "" := by
  apply string_ne_of_take2
  rw [retcode_take2]
  decide

theorem retcode_ne_running (x : String) : ("Return code: " ++ x) ≠ "Running Command:" := by
  apply string_ne_of_take2
  rw [retcode_take2]
  decide

theorem retcode_ne_environment (x : String) : ("Return code: " ++ x) ≠ "Environment:" := by
  apply string_ne_of_take2
  rw [retcode_take2]
  decide

theorem retcode_ne_cmdoutput (x : String) : ("Return code: " ++ x) ≠ "Command Output:" := by
  apply string_ne_of_take2
  rw [retcode_take2]
  decide

theorem log_command_shape (d : Bool) (args : List PyVal) :
    ∀ l ∈ log_command d args,
      l = "" ∨ l = "Running Command:" ∨ ∃ y, l = "\t" ++ y := by
  intro l hl
  unfold log_command at hl
  split at hl
  · simp only [List.mem_cons, List.not_mem_nil, or_false] at hl
    rcases hl with h | h | h
    · exact Or.inl h
    · exact Or.inr (Or.inl h)
    · exact Or.inr (Or.inr ⟨_, h⟩)
  · simp at hl

theorem log_environment_shape (ambient : Dict) (d : Bool) (env : Option Dict) :
    ∀ l ∈ log_environment ambient d env,
      l = "Environment:" ∨ ∃ y, l = "\t" ++ y := by
  intro l hl
  unfold log_environment at hl
  split at hl
  · simp only [List.mem_cons, List.mem_map] at hl
    rcases hl with h | ⟨p, _, hp⟩
    · exact Or.inl h
    · exact Or.inr ⟨_, hp.symm⟩
  · simp at hl

theorem log_output_shape (d : Bool) (out : String) :
    ∀ l ∈ log_output d out,
      l = "Command Output:" ∨ ∃ y, l = "\t" ++ y := by
  intro l hl
  unfold log_output at hl
  split at hl
  · simp only [List.mem_cons, List.mem_map] at hl
    rcases hl with h | ⟨line, _, hp⟩
    · exact Or.inl h
    · exact Or.inr ⟨_, hp.symm⟩
  · simp at hl

theorem check_output_log_shape (sp : Subprocess) (d : Bool) (args : List PyVal)
    (kw : Kwargs) :
    ∀ l ∈ (sp.check_output d args kw).logs,
      l = "" ∨ l = "Running Command:" ∨ l = "Environment:" ∨ l = "Command Output:"
        ∨ ∃ y, l = "\t" ++ y := by
  intro l hl
  cases hc : sp.sub.check_output { args := args.map pyStr, kwargs := sp.final_kwargs kw } with
  | ok ret =>
    have hl2 : l ∈ log_command d args ++ log_environment sp.command.os_environ d kw.env
        ++ log_output d ret := by
      have := hl
      simp only [Subprocess.check_output, hc] at this
      exact this
    rcases List.mem_append.mp hl2 with h12 | h3
    · rcases List.mem_append.mp h12 with h1 | h2
      · rcases log_command_shape d args l h1 with h | h | h
        · exact Or.inl h
        · exact Or.inr (Or.inl h)
        · exact Or.inr (Or.inr (Or.inr (Or.inr h)))
      · rcases log_environment_shape _ d _ l h2 with h | h
        · exact Or.inr (Or.inr (Or.inl h))
        · exact Or.inr (Or.inr (Or.inr (Or.inr h)))
    · rcases log_output_shape d ret l h3 with h | h
      · exact Or.inr (Or.inr (Or.inr (Or.inl h)))
      · exact Or.inr (Or.inr (Or.inr (Or.inr h)))
  | error e =>
    have hl2 : l ∈ log_command d args
        ++ log_environment sp.command.os_environ d kw.env := by
      have := hl
      simp only [Subprocess.check_output, hc, List.append_nil] at this
      exact this
    rcases List.mem_append.mp hl2 with h1 | h2
    · rcases log_command_shape d args l h1 with h | h | h
      · exact Or.inl h
      · exact Or.inr (Or.inl h)
      · exact Or.inr (Or.inr (Or.inr (Or.inr h)))
    · rcases log_environment_shape _ d _ l h2 with h | h
      · exact Or.inr (Or.inr (Or.inl h))
      · exact Or.inr (Or.inr (Or.inr (Or.inr h)))

/-- C6 counterexample: a debug-enabled `check_output` call whose command
exits successfully with captured output logs the command, the environment
and the output lines, but no `Return code:` line — the exit code of the
executed command is never logged by `check_output`, unlike `run`. -/
theorem C6_counterexample :
    (spHome.check_output true [PyVal.str "x"] { }).logs =
      ["", "Running Command:", "\tx", "Environment:", "\tHOME=/h",
        "Command Output:", "\tout1", "\tout2"]
    ∧ ((spHome.check_output true [PyVal.str "x"] { }).logs.all
        (fun l => ! (l.data.take 12 == "Return code:".data))) = true := by
  decide

/-- C6 amended: `check_output` never logs a `Return code:` line — its debug
logs are only the command, environment and captured-output lines — whereas
`run` does log the completed process's return code when debug logging is
enabled. -/
theorem C6_no_return_code_logged (sp : Subprocess) (d : Bool) (args : List PyVal)
    (kw : Kwargs) :
    (∀ n : Int, ("Return code: " ++ toString n) ∉ (sp.check_output d args kw).logs)
    ∧ (∀ cp, sp.sub.run { args := args.map pyStr, kwargs := sp.final_kwargs kw } = .ok cp →
        d = true →
        ("Return code: " ++ toString cp.returncode) ∈ (sp.run d args kw).logs) := by
  constructor
  · intro n hmem
    rcases check_output_log_shape sp d args kw _ hmem with h | h | h | h | ⟨y, h⟩
    · exact retcode_ne_empty _ h
    · exact retcode_ne_running _ h
    · exact retcode_ne_environment _ h
    · exact retcode_ne_cmdoutput _ h
    · exact retcode_ne_tab _ _ h
  · intro cp hok hd
    subst hd
    have hlogs : (sp.run true args kw).logs
        = (log_command true args ++ log_environment sp.command.os_environ true kw.env
            ++ ["Command Output:"]) ++ log_return_code true cp.returncode := by
      simp [Subprocess.run, hok]
    rw [hlogs]
    simp [log_return_code]

/-- Witness for C6 on the concrete successful wrapper. -/
theorem C6_no_return_code_logged_witness :
    ("Return code: " ++ toString (0 : Int)) ∉ (spHome.check_output true [] { }).logs
    ∧ ("Return code: " ++ toString (0 : Int)) ∈ (spHome.run true [] { }).logs :=
  ⟨(C6_no_return_code_logged spHome true [] { }).1 0,
   (C6_no_return_code_logged spHome true [] { }).2
     { args := [], returncode := 0, stdout := none, stderr := none } rfl rfl⟩
